import Mathlib

/-!
Verification of the `early-bird` multi-source ingestion engine.

This file is a shallow embedding, in Lean 4, of the ingestion-relevant
TypeScript code of the repository: the feed-source scheduling and health
tracking (`FeedSource`, `FeedSourceRepository`), the RSS/Atom normalizer
(`RssFeedApiService`), the deduplicating ingestor (`RssFeedCrawlerService`),
the keyword extraction service (`KeywordService`), and the keyword and
keyword-content-link repositories (`KeywordRepository`,
`KeywordContentLinkRepository`, with their entities `Keyword` and
`KeywordContentLink`).

Modelling conventions:
* JavaScript strings are Lean `String`s; all character-level work is done on
  `List Char` with structural functions so that every definition evaluates
  inside the kernel.  The texts under consideration are ASCII, for which
  `Char.toLower`/`Char.isWhitespace` agree with the JavaScript behaviour of
  `toLowerCase` and the `\s` class.
* SQL `datetime` values are integer Unix timestamps (seconds); a nullable
  column is an `Option`.  A JavaScript `Date` object is an `Option Int`:
  `some t` is a valid date with time value `t`, `none` is an Invalid Date
  (`NaN` time value).
* Database tables are association lists; `findOne` is the first match, and
  TypeORM `save` of a fetched row replaces that row in place.
* JavaScript numeric scores (sentiment, relevance) are rationals; the weights
  appearing in the sources (`0.5`, `0.2`, `0.3`, ...) are the corresponding
  rationals.
* JavaScript truthiness on strings (`s || d`: the empty string is falsy) is
  modelled explicitly wherever the sources rely on it.
-/
/-! ### JavaScript string primitives -/

/-- JavaScript `\w` character class (ASCII letters, digits, underscore). -/
def isWordChar (c : Char) : Bool :=
  c.isAlphanum || c == '_'

/-- JavaScript `\s` character class, restricted to the ASCII whitespace
characters that occur in the feeds under consideration. -/
def isSpaceChar (c : Char) : Bool :=
  c.isWhitespace

/-- `String.prototype.toLowerCase` on ASCII text. -/
def jsToLower (s : String) : String :=
  String.mk (s.toList.map Char.toLower)

/-- `String.prototype.trim` on a character list: strip whitespace at both
ends. -/
def jsTrimList (cs : List Char) : List Char :=
  ((cs.dropWhile isSpaceChar).reverse.dropWhile isSpaceChar).reverse

/-- `String.prototype.trim`. -/
def jsTrim (s : String) : String :=
  String.mk (jsTrimList s.toList)

/-- First index (if any) at which `pat` occurs in `l`; `pat = []` matches at
index 0, mirroring `String.prototype.indexOf` (which returns `0` for the
empty pattern and `-1`, here `none`, when there is no occurrence). -/
def indexOfFrom : List Char → List Char → Option Nat
  | l, pat =>
    if pat.isPrefixOf l then some 0
    else
      match l with
      | [] => none
      | _ :: t => (indexOfFrom t pat).map (· + 1)

/-- `String.prototype.indexOf`. -/
def jsIndexOf (s pat : String) : Option Nat :=
  indexOfFrom s.toList pat.toList

/-- `String.prototype.includes` (substring test). -/
def jsIncludes (s pat : String) : Bool :=
  (jsIndexOf s pat).isSome

/-- `String.prototype.replace` with a global literal pattern: replace every
(non-overlapping, leftmost-first) occurrence of `pat` by `rep`.  The sources
only ever use non-empty patterns; an empty pattern is returned unchanged.
The fuel (instantiated with the input length, which each step decreases by
at least one) keeps the recursion structural, so that it evaluates inside
the kernel. -/
def replaceAllList (pat rep : List Char) : Nat → List Char → List Char
  | 0, l => l
  | _, [] => []
  | fuel + 1, c :: rest =>
    if pat ≠ [] ∧ pat.isPrefixOf (c :: rest) then
      rep ++ replaceAllList pat rep fuel ((c :: rest).drop pat.length)
    else
      c :: replaceAllList pat rep fuel rest

/-- `String.prototype.replace` with a global literal pattern, on strings. -/
def jsReplaceAll (s pat rep : String) : String :=
  String.mk (replaceAllList pat.toList rep.toList s.toList.length s.toList)

/-- JavaScript `s || d` for an optional string `s` and default `d`: the empty
string is falsy. -/
def jsOrDefault (s : Option String) (d : String) : String :=
  match s with
  | some t => if t = "" then d else t
  | none => d

/-- First truthy value of a list of optional strings, with a final default:
the JavaScript chain `a || b || ... || d`. -/
def firstTruthy : List (Option String) → String → String
  | [], d => d
  | o :: rest, d =>
    match o with
    | some t => if t = "" then firstTruthy rest d else t
    | none => firstTruthy rest d

/-! ### `FeedSource` (src/src/entities/FeedSource.ts)

Only the columns read or written by the scheduling and crawl-status logic are
embedded.  `crawlErrors` is stored in the source as a JSON string and parsed
on each access; it is embedded directly as the list it encodes. -/

structure FeedSource where
  id : Nat
  isActive : Bool
  crawlIntervalMinutes : Int
  lastCrawledAt : Option Int
  lastSuccessfulCrawlAt : Option Int
  consecutiveFailures : Int
  totalArticlesCrawled : Int
  crawlErrors : List String
  etag : Option String
  lastModified : Option String
deriving DecidableEq, Repr

/-- MySQL `TIMESTAMPDIFF(MINUTE, a, b)`: the number of complete minutes from
`a` to `b`, truncated toward zero. -/
def timestampdiffMinute (a b : Int) : Int :=
  Int.tdiv (b - a) 60

/-- The `WHERE` clause of `FeedSourceRepository.findSourcesDueForCrawling`:
`isActive = true AND consecutiveFailures <= 5 AND (lastCrawledAt IS NULL OR
TIMESTAMPDIFF(MINUTE, lastCrawledAt, :now) >= crawlIntervalMinutes)`. -/
def dueForCrawling (now : Int) (s : FeedSource) : Bool :=
  s.isActive && decide (s.consecutiveFailures ≤ 5) &&
    (match s.lastCrawledAt with
     | none => true
     | some t => decide (s.crawlIntervalMinutes ≤ timestampdiffMinute t now))

/-- The `ORDER BY source.lastCrawledAt ASC` comparison; in MySQL, `NULL`
sorts before every non-`NULL` datetime in ascending order. -/
def lastCrawledLe (s t : FeedSource) : Prop :=
  match s.lastCrawledAt, t.lastCrawledAt with
  | none, _ => True
  | some _, none => False
  | some a, some b => a ≤ b

instance : DecidableRel lastCrawledLe := by
  intro s t
  unfold lastCrawledLe
  cases s.lastCrawledAt <;> cases t.lastCrawledAt <;> infer_instance

instance : IsTotal FeedSource lastCrawledLe where
  total s t := by
    unfold lastCrawledLe
    cases s.lastCrawledAt <;> cases t.lastCrawledAt <;> simp
    exact le_total _ _

instance : IsTrans FeedSource lastCrawledLe where
  trans s t u := by
    unfold lastCrawledLe
    cases s.lastCrawledAt <;> cases t.lastCrawledAt <;> cases u.lastCrawledAt <;> simp
    exact fun h1 h2 => le_trans h1 h2

/-- `FeedSourceRepository.findSourcesDueForCrawling`: filter by the `WHERE`
clause, then order by `lastCrawledAt` ascending. -/
def findSourcesDueForCrawling (now : Int) (sources : List FeedSource) : List FeedSource :=
  (sources.filter (dueForCrawling now)).insertionSort lastCrawledLe

/-- `FeedSource.recordCrawlError`: append the error to the ring (only the
last 10 entries are kept) and increment `consecutiveFailures`. -/
def recordCrawlError (s : FeedSource) (error : String) : FeedSource :=
  let errors := s.crawlErrors ++ [error]
  let errors := if 10 < errors.length then errors.drop (errors.length - 10) else errors
  { s with crawlErrors := errors, consecutiveFailures := s.consecutiveFailures + 1 }

/-- `FeedSource.recordSuccessfulCrawl`: stamp `lastSuccessfulCrawlAt` and
reset `consecutiveFailures` to 0. -/
def recordSuccessfulCrawl (s : FeedSource) (now : Int) : FeedSource :=
  { s with lastSuccessfulCrawlAt := some now, consecutiveFailures := 0 }

/-- `FeedSourceRepository.updateCrawlStatus` on a fetched source row: stamp
`lastCrawledAt`, then record the success or, when an error message was
passed, the failure. -/
def updateCrawlStatus (s : FeedSource) (now : Int) (success : Bool) (error : Option String) :
    FeedSource :=
  let s1 := { s with lastCrawledAt := some now }
  if success then recordSuccessfulCrawl s1 now
  else
    match error with
    | some e => recordCrawlError s1 e
    | none => s1

/-- `FeedSourceRepository.incrementArticleCount`. -/
def incrementArticleCount (s : FeedSource) : FeedSource :=
  { s with totalArticlesCrawled := s.totalArticlesCrawled + 1 }

/-- `RssFeedCrawlerService.updateSourceStatistics` (the part that touches the
counter): the article counter is bumped only when the crawl produced at least
one new article. -/
def updateSourceStatistics (s : FeedSource) (newArticlesCount : Nat) : FeedSource :=
  if 0 < newArticlesCount then incrementArticleCount s else s

/-- A stale active healthy source: due. -/
def demoSourceStale : FeedSource :=
  { id := 1, isActive := true, crawlIntervalMinutes := 60, lastCrawledAt := some 0,
    lastSuccessfulCrawlAt := some 0, consecutiveFailures := 0, totalArticlesCrawled := 3,
    crawlErrors := [], etag := none, lastModified := none }

/-- An active source with 6 consecutive failures: never due. -/
def demoSourceFailed : FeedSource :=
  { id := 2, isActive := true, crawlIntervalMinutes := 60, lastCrawledAt := none,
    lastSuccessfulCrawlAt := none, consecutiveFailures := 6, totalArticlesCrawled := 0,
    crawlErrors := ["timeout"], etag := none, lastModified := none }

/-! ### `FeedContent` (src/src/entities/FeedContent.ts) and the deduplicating
ingestor (`RssFeedCrawlerService.processFeedItems`) -/

/-- `text.split(/\s+/).filter(word => word.length > 0)`. -/
def splitWsTokens (s : String) : List String :=
  ((s.toList.splitOnP isSpaceChar).map String.mk).filter (fun w => 0 < w.length)

/-- `content.replace(/<[^>]*>/g, '')`: erase every span from a `<` to the
first following `>`; a `<` with no later `>` is kept.  Fuelled by the input
length to keep the recursion structural. -/
def stripTagsStar : Nat → List Char → List Char
  | 0, l => l
  | _, [] => []
  | fuel + 1, c :: rest =>
    if c = '<' then
      match rest.findIdx? (fun d => d = '>') with
      | some j => stripTagsStar fuel (rest.drop (j + 1))
      | none => c :: stripTagsStar fuel rest
    else
      c :: stripTagsStar fuel rest

/-- `FeedContent.calculateWordCount`. -/
def calculateWordCount (content : String) : Nat :=
  (splitWsTokens (String.mk (stripTagsStar content.toList.length content.toList))).length

/-- `FeedContent.categorizeContent`: keyword-presence heuristic over the
lowercased body.  (The source also lowercases the title but never reads it;
the parameter is kept for fidelity.) -/
def categorizeContent (title content : String) : String :=
  let c := jsToLower content
  let _t := jsToLower title
  if jsIncludes c "price" || jsIncludes c "market" || jsIncludes c "trading" then
    "market-analysis"
  else if jsIncludes c "regulation" || jsIncludes c "legal" || jsIncludes c "government" then
    "regulation"
  else if jsIncludes c "technology" || jsIncludes c "blockchain" || jsIncludes c "protocol" then
    "technology"
  else if jsIncludes c "adoption" || jsIncludes c "institutional" || jsIncludes c "mainstream" then
    "adoption"
  else
    "general"

/-- The canonical item produced by `RssFeedApiService` (interface
`RssFeedItem`). -/
structure RssFeedItem where
  guid : String
  title : String
  content : String
  summary : String
  url : String
  author : Option String
  category : Option String
  tags : List String
  language : String
  publishedAt : Option Int
deriving DecidableEq, Repr

/-- The stored content row (entity `FeedContent`); columns not touched by the
ingestion path are omitted. -/
structure FeedContent where
  id : Nat
  guid : String
  title : String
  content : String
  summary : String
  url : String
  sourceId : Nat
  wordCount : Nat
  category : Option String
  publishedAt : Option Int
  isAnalyzed : Bool
deriving DecidableEq, Repr

/-- Auto-increment primary key for the content table. -/
def freshContentId (contents : List FeedContent) : Nat :=
  contents.foldr (fun c m => max (c.id + 1) m) 0

/-- `FeedContentRepository.findByGuid`. -/
def findByGuid (contents : List FeedContent) (guid : String) : Option FeedContent :=
  contents.find? (fun c => c.guid == guid)

/-- `RssFeedCrawlerService.createFeedContent`: insert the row, then compute
the word count and the coarse category (the insert followed by the update is
modelled as inserting the finished row). -/
def createFeedContent (contents : List FeedContent) (sourceId : Nat) (item : RssFeedItem) :
    FeedContent × List FeedContent :=
  let base : FeedContent :=
    { id := freshContentId contents, guid := item.guid, title := item.title,
      content := item.content, summary := item.summary, url := item.url,
      sourceId := sourceId, wordCount := 0, category := item.category,
      publishedAt := item.publishedAt, isAnalyzed := false }
  let c := { base with wordCount := calculateWordCount base.content,
                       category := some (categorizeContent base.title base.content) }
  (c, contents ++ [c])

/-- The portion of persistent state the ingestor touches: the content table
and the list of content ids handed to keyword extraction
(`processContentKeywordsAsync`). -/
structure IngestState where
  contents : List FeedContent
  keywordJobs : List Nat
deriving DecidableEq, Repr

/-- One iteration of the loop in `RssFeedCrawlerService.processFeedItems`:
an item whose guid is already stored is counted and skipped; a new item is
created, handed to keyword extraction, and counted as a new article. -/
def processFeedItem (sourceId : Nat) (acc : IngestState × Nat × Nat) (item : RssFeedItem) :
    IngestState × Nat × Nat :=
  let (st, processed, newArticles) := acc
  match findByGuid st.contents item.guid with
  | some _ => (st, processed + 1, newArticles)
  | none =>
    let (c, contents2) := createFeedContent st.contents sourceId item
    ({ contents := contents2, keywordJobs := st.keywordJobs ++ [c.id] },
      processed + 1, newArticles + 1)

/-- `RssFeedCrawlerService.processFeedItems`: returns the final state
together with `(processed, newArticles)`. -/
def processFeedItems (sourceId : Nat) (st : IngestState) (items : List RssFeedItem) :
    IngestState × Nat × Nat :=
  items.foldl (processFeedItem sourceId) (st, 0, 0)

/-- A concrete stored content row for the C1 witness. -/
def demoContent : FeedContent :=
  { id := 7, guid := "g1", title := "Bitcoin rises", content := "Bitcoin rises again",
    summary := "", url := "http://example.com/1", sourceId := 1, wordCount := 3,
    category := some "general", publishedAt := some 1000, isAnalyzed := false }

/-- The same canonical item arriving a second time. -/
def demoItem : RssFeedItem :=
  { guid := "g1", title := "Bitcoin rises", content := "Bitcoin rises again",
    summary := "", url := "http://example.com/1", author := none, category := none,
    tags := [], language := "en", publishedAt := some 1000 }

/-! ### `KeywordContentLink` (entity and repository) -/

/-- `ContentType` enum. -/
inductive ContentType
  | reddit
  | wordpress
  | feed
deriving DecidableEq, Repr

/-- The link row; `relevanceScore` keeps its column default, as neither
`createLink` nor `createOrUpdateLink` writes it. -/
structure KeywordContentLink where
  keywordId : Nat
  contentId : Nat
  contentType : ContentType
  frequency : Nat
  relevanceScore : ℚ
  sentimentScore : ℚ
  context : Option String
deriving DecidableEq, Repr

/-- `KeywordContentLink.createLink`. -/
def KeywordContentLink.createLink (keywordId contentId : Nat) (contentType : ContentType)
    (frequency : Nat) (sentimentScore : ℚ) : KeywordContentLink :=
  { keywordId, contentId, contentType, frequency, relevanceScore := 0, sentimentScore,
    context := none }

/-- The `findOne` predicate on the unique `(keywordId, contentId,
contentType)` triple. -/
def linkMatches (keywordId contentId : Nat) (contentType : ContentType)
    (l : KeywordContentLink) : Bool :=
  l.keywordId == keywordId && l.contentId == contentId && decide (l.contentType = contentType)

/-- `if (context) link.context = context`: the context is overwritten only by
a truthy (non-empty) string. -/
def jsSetContext (context old : Option String) : Option String :=
  match context with
  | some c => if c = "" then old else some c
  | none => old

/-- `KeywordContentLinkRepository.createOrUpdateLink`: update the first row
matching the triple in place, adding the incoming frequency; append a fresh
row when none matches. -/
def createOrUpdateLink (keywordId contentId : Nat) (contentType : ContentType)
    (frequency : Nat) (sentimentScore : ℚ) (context : Option String) :
    List KeywordContentLink → List KeywordContentLink
  | [] =>
    let l := KeywordContentLink.createLink keywordId contentId contentType frequency
      sentimentScore
    [{ l with context := jsSetContext context l.context }]
  | l :: rest =>
    if linkMatches keywordId contentId contentType l then
      { l with frequency := l.frequency + frequency, sentimentScore := sentimentScore,
               context := jsSetContext context l.context } :: rest
    else
      l :: createOrUpdateLink keywordId contentId contentType frequency sentimentScore
        context rest

/-- Number of rows stored for one `(keywordId, contentId, contentType)`
triple. -/
def countTriple (links : List KeywordContentLink) (keywordId contentId : Nat)
    (contentType : ContentType) : Nat :=
  (links.filter (linkMatches keywordId contentId contentType)).length

/-! ### `KeywordService` (src/src/services/KeywordService.ts) -/

/-- The fixed stopword set of `KeywordService`. -/
def stopWords : List String :=
  ["the", "a", "an", "and", "or", "but", "in", "on", "at", "to", "for", "of", "with", "by",
   "this", "that", "these", "those", "is", "are", "was", "were", "be", "been", "being",
   "have", "has", "had", "do", "does", "did", "will", "would", "could", "should", "may",
   "might", "must", "can", "cannot", "it", "its", "he", "she", "they", "we", "you", "i",
   "me", "him", "her", "them", "us", "my", "your", "his", "our", "their", "what", "when",
   "where", "why", "how", "which", "who", "whom", "whose", "all", "any", "some", "no",
   "not", "only", "own", "same", "so", "than", "too", "very", "now", "here", "there",
   "then", "also", "just", "more", "most", "much", "many", "well", "good", "new", "old",
   "first", "last", "long", "great", "little", "high", "right", "left", "big", "small"]

/-- `KeywordService.tokenizeText`: lowercase, replace every character that is
neither a word character nor whitespace by a space, split on whitespace runs,
and drop empty tokens. -/
def tokenizeText (text : String) : List String :=
  let replaced := (jsToLower text).toList.map
    (fun c => if isWordChar c || isSpaceChar c then c else ' ')
  ((replaced.splitOnP isSpaceChar).map String.mk).filter (fun w => 0 < w.length)

/-- `KeywordService.isNumeric`: `/^\d+$/`. -/
def isNumeric (w : String) : Bool :=
  !w.toList.isEmpty && w.toList.all Char.isDigit

/-- `KeywordService.filterKeywords`: keep tokens of length at least 3 that
are neither stopwords nor purely numeric. -/
def filterKeywords (ws : List String) : List String :=
  ws.filter (fun w => decide (3 ≤ w.length) && !stopWords.contains w && !isNumeric w)

/-- `frequencies[keyword] = (frequencies[keyword] || 0) + 1` on an object in
key-insertion order. -/
def bumpFrequency : List (String × Nat) → String → List (String × Nat)
  | [], w => [(w, 1)]
  | (k, n) :: rest, w =>
    if k = w then (k, n + 1) :: rest else (k, n) :: bumpFrequency rest w

/-- `KeywordService.calculateFrequencies`. -/
def calculateFrequencies (ws : List String) : List (String × Nat) :=
  ws.foldl bumpFrequency []

/-- The comparator `(a, b) => b[1] - a[1]` of the relevant-keyword sort:
frequency descending (stable, as `Array.prototype.sort` is). -/
def freqDescending (p q : String × Nat) : Prop :=
  q.2 ≤ p.2

instance : DecidableRel freqDescending := by
  intro p q
  unfold freqDescending
  infer_instance

instance : IsTotal (String × Nat) freqDescending where
  total p q := le_total q.2 p.2

instance : IsTrans (String × Nat) freqDescending where
  trans p q r h1 h2 := le_trans h2 h1

/-- The fixed crypto vocabulary of `KeywordService.isCryptoRelated`. -/
def cryptoVocabulary : List String :=
  ["bitcoin", "btc", "ethereum", "eth", "crypto", "cryptocurrency", "blockchain",
   "defi", "nft", "altcoin", "stablecoin", "mining", "wallet", "exchange",
   "token", "coin", "satoshi", "wei", "gwei", "dapp", "dao", "yield",
   "farming", "staking", "liquidity", "protocol", "smart", "contract",
   "binance", "coinbase", "kraken", "bybit", "okx", "kucoin",
   "bull", "bear", "hodl", "fomo", "fud", "pump", "dump", "moon",
   "diamond", "hands", "paper", "ape", "degen", "ngmi", "wagmi"]

/-- `KeywordService.isCryptoRelated`: the keyword contains a vocabulary word
or a vocabulary word contains the keyword. -/
def isCryptoRelated (keyword : String) : Bool :=
  cryptoVocabulary.any (fun crypto => jsIncludes keyword crypto || jsIncludes crypto keyword)

/-- The `KeywordAnalysisResult` interface. -/
structure KeywordAnalysisResult where
  keywords : List String
  keywordFrequencies : List (String × Nat)
  relevantKeywords : List String
  cryptoKeywords : List String
deriving DecidableEq, Repr

/-- `title ? `${title} ${text}` : text` (an empty title is falsy). -/
def fullTextOf (text : String) (title : Option String) : String :=
  match title with
  | some t => if t = "" then text else t ++ " " ++ text
  | none => text

/-- The relevant-keyword selection of `extractKeywordsFromText`:
`Object.entries(freqs).filter(([k, f]) => f >= 2 && k.length >= 4)
.sort((a, b) => b[1] - a[1])`. -/
def relevantEntries (freqs : List (String × Nat)) : List (String × Nat) :=
  (freqs.filter (fun p => decide (2 ≤ p.2) && decide (4 ≤ p.1.length))).insertionSort
    freqDescending

/-- `KeywordService.extractKeywordsFromText` (the try branch; the catch branch
is `emptyAnalysis` below). -/
def extractKeywordsFromText (text : String) (title : Option String) : KeywordAnalysisResult :=
  let words := tokenizeText (fullTextOf text title)
  let keywords := filterKeywords words
  let keywordFrequencies := calculateFrequencies keywords
  let relevantKeywords := (relevantEntries keywordFrequencies).map Prod.fst
  let cryptoKeywords := relevantKeywords.filter isCryptoRelated
  { keywords := keywordFrequencies.map Prod.fst, keywordFrequencies := keywordFrequencies,
    relevantKeywords := relevantKeywords, cryptoKeywords := cryptoKeywords }

/-- The result returned by the catch branch of `extractKeywordsFromText`. -/
def emptyAnalysis : KeywordAnalysisResult :=
  { keywords := [], keywordFrequencies := [], relevantKeywords := [], cryptoKeywords := [] }

/-- `extractKeywordsFromText` with its try/catch: `outcome` abstracts whether
any internal step threw; every thrown error is swallowed and replaced by the
empty analysis. -/
def extractKeywordsFromTextCaught (outcome : Except String Unit) (text : String)
    (title : Option String) : KeywordAnalysisResult :=
  match outcome with
  | .ok _ => extractKeywordsFromText text title
  | .error _ => emptyAnalysis

/-- `KeywordService.calculateRelevanceScore`, over exact rationals. -/
def calculateRelevanceScore (keyword text : String) (frequency : Nat)
    (isCryptoKeyword : Bool) : ℚ :=
  let frequencyScore : ℚ := min ((frequency : ℚ) / 10) 1
  let cryptoBoost : ℚ := if isCryptoKeyword then 3 / 10 else 0
  let positionScore : ℚ :=
    match jsIndexOf (jsToLower text) (jsToLower keyword) with
    | some firstOccurrence => max 0 (1 - (firstOccurrence : ℚ) / (text.length : ℚ))
    | none => 0
  min (frequencyScore * (1 / 2) + positionScore * (1 / 5) + cryptoBoost) 1

/-- The relevance formula exactly as the specification words it: a weighted
blend `0.5 * normalizedFrequency + 0.2 * positionScore + cryptoBoost`, the
crypto boost being a flat `0.3` for crypto-vocabulary matches and `0`
otherwise, with no final clamp. -/
def relevanceScoreSpec (keyword text : String) (frequency : Nat)
    (isCryptoKeyword : Bool) : ℚ :=
  let normalizedFrequency : ℚ := min ((frequency : ℚ) / 10) 1
  let positionScore : ℚ :=
    match jsIndexOf (jsToLower text) (jsToLower keyword) with
    | some firstIndex => max 0 (1 - (firstIndex : ℚ) / (text.length : ℚ))
    | none => 0
  1 / 2 * normalizedFrequency + 1 / 5 * positionScore +
    (if isCryptoKeyword then 3 / 10 else 0)

/-- `KeywordService.extractKeywordContext`: a window of `contextLength`
characters centred on the first occurrence, ellipsis-marked when truncated. -/
def extractKeywordContext (text keyword : String) (contextLength : Nat) : String :=
  match jsIndexOf (jsToLower text) (jsToLower keyword) with
  | none => ""
  | some keywordIndex =>
    let start := keywordIndex - contextLength / 2
    let finish := min text.length (keywordIndex + keyword.length + contextLength / 2)
    let context := String.mk ((text.toList.drop start).take (finish - start))
    let context := if 0 < start then "..." ++ context else context
    let context := if finish < text.length then context ++ "..." else context
    jsTrim context

/-! ### `Keyword` entity and `KeywordRepository` -/

/-- `Keyword.normalizeKeyword`: lowercase, trim, then delete every character
that is neither a word character nor whitespace. -/
def normalizeKeyword (keyword : String) : String :=
  String.mk ((jsTrimList (jsToLower keyword).toList).filter
    (fun c => isWordChar c || isSpaceChar c))

/-- The `keywords` table row. -/
structure Keyword where
  id : Nat
  keyword : String
  normalizedKeyword : String
  category : Option String
  frequency : Nat
  averageSentiment : ℚ
  relevanceScore : ℚ
  isActive : Bool
deriving DecidableEq, Repr

/-- Vocabulary of `Keyword.isCryptoKeyword`. -/
def categoryCryptoList : List String :=
  ["bitcoin", "btc", "ethereum", "eth", "crypto", "cryptocurrency",
   "blockchain", "defi", "nft", "altcoin", "stablecoin", "mining",
   "wallet", "exchange", "token", "coin", "satoshi", "wei", "gwei"]

/-- Vocabulary of `Keyword.isMarketKeyword`. -/
def categoryMarketList : List String :=
  ["price", "market", "trading", "bull", "bear", "pump", "dump",
   "volume", "capitalization", "volatility", "trend", "analysis",
   "support", "resistance", "breakout", "correction", "rally"]

/-- Vocabulary of `Keyword.isTechnologyKeyword`. -/
def categoryTechnologyList : List String :=
  ["protocol", "consensus", "proof", "stake", "work", "hash",
   "smart", "contract", "dapp", "layer", "scaling", "interoperability",
   "decentralized", "distributed", "node", "validator"]

/-- Vocabulary of `Keyword.isRegulationKeyword`. -/
def categoryRegulationList : List String :=
  ["regulation", "legal", "compliance", "law", "government",
   "sec", "cftc", "treasury", "ban", "approve", "legislation",
   "policy", "cbdc", "institutional", "etf"]

/-- `Keyword.categorizeKeyword`. -/
def Keyword.categorizeKeyword (k : Keyword) : String :=
  let keyword := jsToLower k.normalizedKeyword
  if categoryCryptoList.any (fun c => jsIncludes keyword c) then "crypto"
  else if categoryMarketList.any (fun c => jsIncludes keyword c) then "market"
  else if categoryTechnologyList.any (fun c => jsIncludes keyword c) then "technology"
  else if categoryRegulationList.any (fun c => jsIncludes keyword c) then "regulation"
  else "general"

/-- `Keyword.updateAverageSentiment`: exponential moving average
`0.9 * old + 0.1 * incoming`. -/
def Keyword.updateAverageSentiment (k : Keyword) (newSentiment : ℚ) : Keyword :=
  { k with averageSentiment := k.averageSentiment * (9 / 10) + newSentiment * (1 / 10) }

/-- `Keyword.calculateRelevanceScore` (the keyword-level one):
`0.7 * min(frequency / 100, 1) + 0.3 * |averageSentiment|`. -/
def Keyword.calcRelevance (k : Keyword) : Keyword :=
  let frequencyScore : ℚ := min ((k.frequency : ℚ) / 100) 1
  let sentimentScore : ℚ := abs k.averageSentiment
  { k with relevanceScore := frequencyScore * (7 / 10) + sentimentScore * (3 / 10) }

/-- The recursion behind `KeywordRepository.findOrCreateKeyword`: find the
first row with the given normalized term and increment its frequency in
place; append a fresh row with frequency 1 (and its category computed) when
none exists. -/
def findOrCreateLoop (freshId : Nat) (kw nk : String) :
    List Keyword → Keyword × List Keyword
  | [] =>
    let base : Keyword :=
      { id := freshId, keyword := kw, normalizedKeyword := nk, category := none,
        frequency := 1, averageSentiment := 0, relevanceScore := 0, isActive := true }
    let created := { base with category := some base.categorizeKeyword }
    (created, [created])
  | k :: rest =>
    if k.normalizedKeyword = nk then
      let k2 := { k with frequency := k.frequency + 1 }
      (k2, k2 :: rest)
    else
      let r := findOrCreateLoop freshId kw nk rest
      (r.1, k :: r.2)

/-- `KeywordRepository.findOrCreateKeyword`. -/
def findOrCreateKeyword (freshId : Nat) (kw : String) (store : List Keyword) :
    Keyword × List Keyword :=
  findOrCreateLoop freshId kw (normalizeKeyword kw) store

/-- Replace the first element satisfying `p` (TypeORM `findOne` + `save`). -/
def updateFirstBy (p : α → Bool) (f : α → α) : List α → List α
  | [] => []
  | x :: rest => if p x then f x :: rest else x :: updateFirstBy p f rest

/-- `KeywordRepository.updateKeywordSentiment`: update the sentiment EMA and
recompute the keyword-level relevance; the frequency is untouched. -/
def updateKeywordSentiment (store : List Keyword) (keywordId : Nat)
    (newSentiment : ℚ) : List Keyword :=
  updateFirstBy (fun k => k.id == keywordId)
    (fun k => (k.updateAverageSentiment newSentiment).calcRelevance) store

/-- Auto-increment primary key for the keyword table. -/
def freshKeywordId (store : List Keyword) : Nat :=
  store.foldr (fun k m => max (k.id + 1) m) 0

/-- The shared-write state that `processContentKeywords` threads: the keyword
table and the link table. -/
structure ServiceState where
  keywords : List Keyword
  links : List KeywordContentLink
deriving DecidableEq, Repr

/-- The `ContentKeywordLink` result interface of `processContentKeywords`. -/
structure ContentKeywordLink where
  keywordId : Nat
  keyword : String
  frequency : Nat
  relevanceScore : ℚ
  context : String
deriving DecidableEq, Repr

/-- `analysis.keywordFrequencies[keywordText] || 1`. -/
def lookupFrequency (freqs : List (String × Nat)) (kw : String) : Nat :=
  match freqs.find? (fun p => p.1 == kw) with
  | some p => if p.2 = 0 then 1 else p.2
  | none => 1

/-- One iteration of the keyword loop in
`KeywordService.processContentKeywords`. -/
def processOneKeyword (contentId : Nat) (ct : ContentType) (text : String)
    (sentimentScore : ℚ) (analysis : KeywordAnalysisResult)
    (acc : List ContentKeywordLink × ServiceState) (keywordText : String) :
    List ContentKeywordLink × ServiceState :=
  let frequency := lookupFrequency analysis.keywordFrequencies keywordText
  let fr := findOrCreateKeyword (freshKeywordId acc.2.keywords) keywordText acc.2.keywords
  let relevanceScore := calculateRelevanceScore keywordText text frequency
    (analysis.cryptoKeywords.contains keywordText)
  let context := extractKeywordContext text keywordText 100
  let links2 := createOrUpdateLink fr.1.id contentId ct frequency sentimentScore
    (some context) acc.2.links
  let keywords2 := updateKeywordSentiment fr.2 fr.1.id sentimentScore
  (acc.1 ++ [{ keywordId := fr.1.id, keyword := keywordText, frequency := frequency,
               relevanceScore := relevanceScore, context := context }],
   { keywords := keywords2, links := links2 })

/-- `KeywordService.processContentKeywords` (the try branch): process the top
20 relevant keywords into keyword rows and content links. -/
def processContentKeywords (st : ServiceState) (contentId : Nat) (ct : ContentType)
    (text : String) (title : Option String) (sentimentScore : ℚ) :
    List ContentKeywordLink × ServiceState :=
  let analysis := extractKeywordsFromText text title
  let keywordsToProcess := analysis.relevantKeywords.take 20
  keywordsToProcess.foldl (processOneKeyword contentId ct text sentimentScore analysis)
    ([], st)

/-- `processContentKeywords` with its try/catch: any thrown error is
swallowed and replaced by the empty link list. -/
def processContentKeywordsCaught (outcome : Except String Unit) (st : ServiceState)
    (contentId : Nat) (ct : ContentType) (text : String) (title : Option String)
    (sentimentScore : ℚ) : List ContentKeywordLink :=
  match outcome with
  | .ok _ => (processContentKeywords st contentId ct text title sentimentScore).1
  | .error _ => []

/-- A concrete stored keyword row for the C9 witness. -/
def demoKeyword : Keyword :=
  { id := 3, keyword := "bitcoin", normalizedKeyword := "bitcoin",
    category := some "crypto", frequency := 5, averageSentiment := 0,
    relevanceScore := 0, isActive := true }

/-! ### Keyword extraction pipeline (claim C5) -/

/-- Value stored under key `k` (0 when absent) — the read
`frequencies[keyword] || 0` that `calculateFrequencies` performs. -/
def lookupCount (l : List (String × Nat)) (k : String) : Nat :=
  match l.find? (fun p => p.1 == k) with
  | some p => p.2
  | none => 0

/-! ### `RssFeedApiService` normalizer (src/src/services/RssFeedApiService.ts)

The xml2js output is embedded post-parse: a raw RSS item / Atom entry is the
record of string values the parser hands the normalizer (`item.guid?._ ||
item.guid` and the analogous attribute/text collapses are represented by the
single resolved optional string).  The synthesized last-resort guid
(`feedUrl-Date.now()-Math.random()`) is an opaque parameter `synth`. -/

/-- JavaScript date parsing, abstracted: `parse s` is the time value of
`new Date(s)`, with `none` for an Invalid Date (`NaN` time value).  Modelled
from ECMAScript semantics: the `Date` constructor never throws on an
unparseable string, it yields an Invalid Date. -/
structure DateParser where
  parse : String → Option Int

/-- The argument of `RssFeedApiService.parseDate`: a date string or an
already-constructed (valid) `Date`. -/
inductive DateInput
  | str (s : String)
  | date (t : Int)
deriving DecidableEq, Repr

/-- `RssFeedApiService.parseDate`.  The source wraps `new Date(dateString)`
in try/catch with `new Date()` (now) as the catch result, but the constructor
never throws, so the catch branch is unreachable and an unparseable string
produces the Invalid Date itself. -/
def parseDate (P : DateParser) : DateInput → Option Int
  | DateInput.date t => some t
  | DateInput.str s => P.parse s

/-- First truthy value of a chain of optional strings (no default):
`a || b || ... || undefined`. -/
def firstTruthyOpt : List (Option String) → Option String
  | [] => none
  | o :: rest =>
    match o with
    | some t => if t = "" then firstTruthyOpt rest else some t
    | none => firstTruthyOpt rest

/-- `RssFeedApiService.cleanText`: decode the six HTML entities and trim. -/
def cleanText (text : Option String) : String :=
  match text with
  | none => ""
  | some t =>
    if t = "" then ""
    else
      let s := jsReplaceAll t "&amp;" "&"
      let s := jsReplaceAll s "&lt;" "<"
      let s := jsReplaceAll s "&gt;" ">"
      let s := jsReplaceAll s "&quot;" "\""
      let s := jsReplaceAll s "&#39;" (String.mk [Char.ofNat 39])
      let s := jsReplaceAll s "&nbsp;" " "
      jsTrim s

/-- Case-insensitive removal of `openTag[^>]*>.*?closeTag` blocks
(`/<script[^>]*>.*?<\/script>/gi` and the style analogue): drop from each
occurrence of the opening tag through the nearest closing tag.  Fuelled by
the input length; a block left unclosed is kept. -/
def removeBlocksCI (openTag closeTag : List Char) : Nat → List Char → List Char
  | 0, cs => cs
  | fuel + 1, cs =>
    match indexOfFrom (cs.map Char.toLower) (openTag.map Char.toLower) with
    | none => cs
    | some i =>
      let before := cs.take i
      let after := cs.drop (i + openTag.length)
      match after.findIdx? (fun c => c = '>') with
      | none => cs
      | some j =>
        let rest := after.drop (j + 1)
        match indexOfFrom (rest.map Char.toLower) (closeTag.map Char.toLower) with
        | none => cs
        | some m =>
          before ++ removeBlocksCI openTag closeTag fuel (rest.drop (m + closeTag.length))

/-- `/<[^>]+>/g` replaced by a space: erase each span from a `<` through the
first following `>` with at least one character in between.  Fuelled by the
input length to keep the recursion structural. -/
def stripTagsPlus : Nat → List Char → List Char
  | 0, l => l
  | _, [] => []
  | fuel + 1, c :: rest =>
    if c = '<' then
      match rest.findIdx? (fun d => d = '>') with
      | some j =>
        if j = 0 then c :: stripTagsPlus fuel rest
        else ' ' :: stripTagsPlus fuel (rest.drop (j + 1))
      | none => c :: stripTagsPlus fuel rest
    else
      c :: stripTagsPlus fuel rest

/-- `/\s+/g` replaced by a single space.  Fuelled by the input length to
keep the recursion structural. -/
def collapseWs : Nat → List Char → List Char
  | 0, l => l
  | _, [] => []
  | fuel + 1, c :: rest =>
    if isSpaceChar c then ' ' :: collapseWs fuel (rest.dropWhile isSpaceChar)
    else c :: collapseWs fuel rest

/-- `RssFeedApiService.cleanHtml`: drop script and style blocks, strip the
remaining tags, collapse whitespace, trim. -/
def cleanHtml (html : String) : String :=
  if html = "" then ""
  else
    let cs := html.toList
    let cs := removeBlocksCI "<script".toList "</script>".toList cs.length cs
    let cs := removeBlocksCI "<style".toList "</style>".toList cs.length cs
    let cs := stripTagsPlus cs.length cs
    let cs := collapseWs cs.length cs
    jsTrim (String.mk cs)

/-- A raw RSS 2.0 `<item>` as handed over by xml2js. -/
structure RssRawItem where
  guid : Option String
  title : Option String
  link : Option String
  descr : Option String
  contentEncoded : Option String
  summary : Option String
  contentField : Option String
  author : Option String
  dcCreator : Option String
  categories : List String
  pubDate : Option String
  published : Option String
deriving DecidableEq, Repr

/-- A raw RSS 2.0 `<channel>`; `items` is
`Array.isArray(channel.item) ? channel.item : [channel.item]`, whose entries
may be absent (`if (!item) continue`). -/
structure RssChannel where
  title : Option String
  link : Option String
  descr : Option String
  language : Option String
  items : List (Option RssRawItem)
deriving DecidableEq, Repr

/-- `RssFeedApiService.extractContent`: first truthy field of
`content:encoded`, `description`, `summary`, `content`, cleaned of HTML;
empty when none is present. -/
def extractContent (item : RssRawItem) : String :=
  match firstTruthyOpt [item.contentEncoded, item.descr, item.summary, item.contentField] with
  | some c => cleanHtml c
  | none => ""

/-- `item.pubDate || item.published || new Date()`. -/
def pubDateInput (now : Int) (item : RssRawItem) : DateInput :=
  match firstTruthyOpt [item.pubDate, item.published] with
  | some s => DateInput.str s
  | none => DateInput.date now

/-- The per-item construction of `RssFeedApiService.parseRss2Feed`. -/
def mkRssItem (P : DateParser) (now : Int) (synth feedUrl : String)
    (channelLanguage : Option String) (item : RssRawItem) : RssFeedItem :=
  { guid := firstTruthy [item.guid, item.link] synth,
    title := cleanText (some (jsOrDefault item.title "Untitled")),
    content := extractContent item,
    summary := cleanText item.descr,
    url := jsOrDefault item.link feedUrl,
    author := firstTruthyOpt [item.author, item.dcCreator],
    category := item.categories.head?,
    tags := item.categories,
    language := jsOrDefault channelLanguage "en",
    publishedAt := parseDate P (pubDateInput now item) }

/-- The normalizer output (`RssFeedData`). -/
structure RssFeedData where
  title : String
  descr : String
  url : String
  language : String
  items : List RssFeedItem
deriving DecidableEq, Repr

/-- `RssFeedApiService.parseRss2Feed`: build every present item, then keep
only the items whose title and content are both truthy. -/
def parseRss2Feed (P : DateParser) (now : Int) (synth feedUrl : String)
    (ch : RssChannel) : RssFeedData :=
  let rawItems := ch.items.reduceOption
  let items := rawItems.map (mkRssItem P now synth feedUrl ch.language)
  { title := cleanText (some (jsOrDefault ch.title "Unknown Feed")),
    descr := cleanText ch.descr,
    url := jsOrDefault ch.link feedUrl,
    language := jsOrDefault ch.language "en",
    items := items.filter (fun i => !(i.title == "") && !(i.content == "")) }

/-- An Atom `<link>`: either a plain string or an element with `type` and
`href` attributes. -/
inductive AtomLink
  | str (s : String)
  | obj (type href : Option String)
deriving DecidableEq, Repr

/-- The `link.type === 'text/html' && link.href` test of
`extractAtomLink`. -/
def atomLinkHtml (l : AtomLink) : Bool :=
  match l with
  | AtomLink.obj t (some h) => decide (t = some "text/html") && decide (h ≠ "")
  | _ => false

/-- `RssFeedApiService.extractAtomLink`: prefer the `text/html` link, fall
back to the first link. -/
def extractAtomLink (links : List AtomLink) : Option String :=
  if links.isEmpty then none
  else
    match links.find? atomLinkHtml with
    | some (AtomLink.obj _ (some h)) => some h
    | _ =>
      match links.head? with
      | some (AtomLink.obj _ (some s)) => if s = "" then none else some s
      | some (AtomLink.obj _ none) => none
      | some (AtomLink.str s) => some s
      | none => none

/-- A raw Atom `<entry>`; text-or-attribute collapses (`title?._ || title`,
`content._ || content`, `author.name || author.email`, category `term`s) are
represented by the resolved values. -/
structure AtomEntry where
  id : Option String
  title : Option String
  contentE : Option String
  summary : Option String
  links : List AtomLink
  author : Option String
  categories : List String
  published : Option String
  updated : Option String
deriving DecidableEq, Repr

/-- A raw Atom `<feed>`. -/
structure AtomFeed where
  title : Option String
  subtitle : Option String
  links : List AtomLink
  xmlLang : Option String
  entries : List (Option AtomEntry)
deriving DecidableEq, Repr

/-- `RssFeedApiService.extractAtomContent`: content before summary, cleaned;
empty when neither is present. -/
def extractAtomContent (entry : AtomEntry) : String :=
  match firstTruthyOpt [entry.contentE, entry.summary] with
  | some c => cleanHtml c
  | none => ""

/-- The per-entry construction of `RssFeedApiService.parseAtomFeed`. -/
def mkAtomItem (P : DateParser) (now : Int) (synth feedUrl : String)
    (feedLang : Option String) (entry : AtomEntry) : RssFeedItem :=
  { guid := jsOrDefault entry.id synth,
    title := cleanText (some (jsOrDefault entry.title "Untitled")),
    content := extractAtomContent entry,
    summary := cleanText entry.summary,
    url := jsOrDefault (extractAtomLink entry.links) feedUrl,
    author := entry.author,
    category := entry.categories.head?,
    tags := entry.categories.filter (fun t => !(t == "")),
    language := jsOrDefault feedLang "en",
    publishedAt := parseDate P
      (match firstTruthyOpt [entry.published, entry.updated] with
       | some s => DateInput.str s
       | none => DateInput.date now) }

/-- `RssFeedApiService.parseAtomFeed`. -/
def parseAtomFeed (P : DateParser) (now : Int) (synth feedUrl : String)
    (feed : AtomFeed) : RssFeedData :=
  let rawEntries := feed.entries.reduceOption
  let items := rawEntries.map (mkAtomItem P now synth feedUrl feed.xmlLang)
  { title := cleanText (some (jsOrDefault feed.title "Unknown Feed")),
    descr := cleanText feed.subtitle,
    url := jsOrDefault (extractAtomLink feed.links) feedUrl,
    language := jsOrDefault feed.xmlLang "en",
    items := items.filter (fun i => !(i.title == "") && !(i.content == "")) }

/-- A concrete date parser for the normalizer witnesses: recognizes one ISO
date and nothing else (any other string is an Invalid Date). -/
def demoParser : DateParser :=
  { parse := fun s => if s = "2024-01-02T00:00:00Z" then some 1704153600 else none }

/-- A well-formed RSS item that has a title but no body field at all. -/
def titleOnlyItem : RssRawItem :=
  { guid := some "g-title-only", title := some "Hello world",
    link := some "http://e.com/a", descr := none, contentEncoded := none,
    summary := none, contentField := none, author := none, dcCreator := none,
    categories := [], pubDate := none, published := none }

/-- A channel carrying only the title-only item. -/
def titleOnlyChannel : RssChannel :=
  { title := some "Feed", link := some "http://e.com", descr := none,
    language := some "en", items := [some titleOnlyItem] }

/-- First crafted RSS round-trip item: body from `description`. -/
def rssItem1 : RssRawItem :=
  { guid := some "r1", title := some "Bitcoin rallies", link := some "http://e.com/1",
    descr := some "Bitcoin price climbs", contentEncoded := none, summary := none,
    contentField := none, author := some "alice", dcCreator := none,
    categories := ["markets"], pubDate := some "2024-01-02T00:00:00Z",
    published := none }

/-- Second crafted RSS round-trip item: body from `content:encoded` with
HTML to strip. -/
def rssItem2 : RssRawItem :=
  { guid := some "r2", title := some "Ethereum upgrade", link := some "http://e.com/2",
    descr := none, contentEncoded := some "<p>The merge completed</p>",
    summary := none, contentField := none, author := none, dcCreator := some "bob",
    categories := [], pubDate := none, published := none }

/-- Third crafted RSS round-trip item: unparseable publish date. -/
def rssItem3 : RssRawItem :=
  { guid := some "r3", title := some "Stablecoin rules", link := some "http://e.com/3",
    descr := some "Regulators act", contentEncoded := none, summary := none,
    contentField := none, author := none, dcCreator := none,
    categories := ["policy"], pubDate := some "not-a-date", published := none }

/-- The crafted RSS 2.0 payload with 3 well-formed items. -/
def rssRoundTrip : RssChannel :=
  { title := some "Crypto News", link := some "http://e.com", descr := some "d",
    language := some "en", items := [some rssItem1, some rssItem2, some rssItem3] }

/-- The crafted Atom payload with 3 well-formed entries. -/
def atomRoundTrip : AtomFeed :=
  { title := some "Chain Blog", subtitle := some "s",
    links := [AtomLink.obj (some "text/html") (some "http://e.com")],
    xmlLang := some "en",
    entries :=
      [some { id := some "a1", title := some "DeFi yields",
              contentE := some "Yields are up", summary := none,
              links := [AtomLink.str "http://e.com/a1"], author := some "carol",
              categories := ["defi"], published := some "2024-01-02T00:00:00Z",
              updated := none },
       some { id := some "a2", title := some "NFT markets", contentE := none,
              summary := some "Volume falls", links := [], author := none,
              categories := [], published := none,
              updated := some "2024-01-03T00:00:00Z" },
       some { id := some "a3", title := some "Mining report",
              contentE := some "<b>Hashrate</b> stable", summary := none,
              links := [], author := none, categories := ["mining"],
              published := none, updated := none }] }

/-! ## Theorems -/

/-! ### Scheduler due-set (claim C2) -/

/-- Complete-minutes truncation versus elapsed seconds: for a positive
interval `I` (in minutes), `TIMESTAMPDIFF(MINUTE, ·, ·) ≥ I` holds exactly
when at least `60 * I` seconds have elapsed. -/
theorem le_tdiv_sixty_iff (d I : Int) (hI : 1 ≤ I) : I ≤ Int.tdiv d 60 ↔ 60 * I ≤ d := by
  constructor
  · intro h
    rcases le_or_lt 0 d with hd | hd
    · rw [Int.tdiv_eq_ediv hd (by norm_num)] at h
      have := (Int.le_ediv_iff_mul_le (by norm_num : (0 : Int) < 60)).mp h
      linarith
    · exfalso
      have h1 : Int.tdiv d 60 = -Int.tdiv (-d) 60 := by
        rw [← Int.neg_tdiv, neg_neg]
      have h2 : 0 ≤ Int.tdiv (-d) 60 := Int.tdiv_nonneg (by linarith) (by norm_num)
      omega
  · intro h
    have hd : 0 ≤ d := by linarith
    rw [Int.tdiv_eq_ediv hd (by norm_num), Int.le_ediv_iff_mul_le (by norm_num : (0 : Int) < 60)]
    linarith

/-- C2.  Scheduler due-set: for sources with a positive crawl interval, the
due-for-crawl query returns a source iff it is active, has
`consecutiveFailures ≤ 5` (so a source with more than 5 consecutive failures
is never returned, active or not), and either was never crawled or was last
crawled at least `crawlIntervalMinutes` minutes ago; the result is ordered
oldest-`lastCrawledAt`-first (never-crawled sources first, as MySQL sorts
`NULL` first ascending). -/
theorem findSourcesDueForCrawling_spec (now : Int) (sources : List FeedSource)
    (hI : ∀ s ∈ sources, 1 ≤ s.crawlIntervalMinutes) :
    (∀ s, s ∈ findSourcesDueForCrawling now sources ↔
        s ∈ sources ∧ s.isActive = true ∧ s.consecutiveFailures ≤ 5 ∧
          (s.lastCrawledAt = none ∨
            ∃ t, s.lastCrawledAt = some t ∧ t + 60 * s.crawlIntervalMinutes ≤ now)) ∧
    (∀ s ∈ findSourcesDueForCrawling now sources, s.consecutiveFailures ≤ 5) ∧
    List.Sorted lastCrawledLe (findSourcesDueForCrawling now sources) := by
  have hmem : ∀ s, s ∈ findSourcesDueForCrawling now sources ↔
      s ∈ sources ∧ s.isActive = true ∧ s.consecutiveFailures ≤ 5 ∧
        (s.lastCrawledAt = none ∨
          ∃ t, s.lastCrawledAt = some t ∧ t + 60 * s.crawlIntervalMinutes ≤ now) := by
    intro s
    rw [findSourcesDueForCrawling, List.mem_insertionSort, List.mem_filter]
    constructor
    · rintro ⟨hs, hdue⟩
      refine ⟨hs, ?_⟩
      unfold dueForCrawling at hdue
      rcases hl : s.lastCrawledAt with _ | t
      · rw [hl] at hdue
        simp only [Bool.and_true, Bool.and_eq_true, decide_eq_true_eq] at hdue
        exact ⟨hdue.1, hdue.2, Or.inl rfl⟩
      · rw [hl] at hdue
        simp only [Bool.and_eq_true, decide_eq_true_eq] at hdue
        refine ⟨hdue.1.1, hdue.1.2, Or.inr ⟨t, rfl, ?_⟩⟩
        have h60 : 60 * s.crawlIntervalMinutes ≤ now - t := by
          have := (le_tdiv_sixty_iff (now - t) s.crawlIntervalMinutes (hI s hs)).mp hdue.2
          exact this
        linarith
    · rintro ⟨hs, hact, hcf, hlast⟩
      refine ⟨hs, ?_⟩
      unfold dueForCrawling
      rcases hlast with hl | ⟨t, hl, ht⟩
      · rw [hl]
        simp [hact, hcf]
      · rw [hl]
        simp only [hact, Bool.true_and, Bool.and_eq_true, decide_eq_true_eq]
        refine ⟨hcf, ?_⟩
        rw [timestampdiffMinute, le_tdiv_sixty_iff (now - t) s.crawlIntervalMinutes (hI s hs)]
        linarith
  refine ⟨hmem, ?_, ?_⟩
  · intro s hs
    exact ((hmem s).mp hs).2.2.1
  · exact List.sorted_insertionSort lastCrawledLe _

/-- Witness for C2 at a concrete pair of sources and `now = 7260`. -/
theorem findSourcesDueForCrawling_spec_witness :
    (∀ s ∈ [demoSourceStale, demoSourceFailed], 1 ≤ s.crawlIntervalMinutes) ∧
    ((∀ s, s ∈ findSourcesDueForCrawling 7260 [demoSourceStale, demoSourceFailed] ↔
        s ∈ [demoSourceStale, demoSourceFailed] ∧ s.isActive = true ∧
          s.consecutiveFailures ≤ 5 ∧
          (s.lastCrawledAt = none ∨
            ∃ t, s.lastCrawledAt = some t ∧ t + 60 * s.crawlIntervalMinutes ≤ 7260)) ∧
      (∀ s ∈ findSourcesDueForCrawling 7260 [demoSourceStale, demoSourceFailed],
        s.consecutiveFailures ≤ 5) ∧
      List.Sorted lastCrawledLe (findSourcesDueForCrawling 7260 [demoSourceStale, demoSourceFailed])) :=
  ⟨by decide, findSourcesDueForCrawling_spec 7260 [demoSourceStale, demoSourceFailed] (by decide)⟩

/-! ### Failure accounting (claim C4) -/

/-- C4.  Failure accounting: a failed crawl recorded with an error message
increments `consecutiveFailures` by exactly 1 (so three consecutive failures
from 0 leave it at 3); a successful crawl resets it to 0 and stamps
`lastSuccessfulCrawlAt`; and `consecutiveFailures` decreases only on a
successful crawl. -/
theorem updateCrawlStatus_spec :
    (∀ (s : FeedSource) (now : Int) (e : String),
      (updateCrawlStatus s now false (some e)).consecutiveFailures =
        s.consecutiveFailures + 1) ∧
    (∀ (s : FeedSource) (n1 n2 n3 : Int) (e1 e2 e3 : String),
      s.consecutiveFailures = 0 →
      (updateCrawlStatus (updateCrawlStatus (updateCrawlStatus s n1 false (some e1))
          n2 false (some e2)) n3 false (some e3)).consecutiveFailures = 3) ∧
    (∀ (s : FeedSource) (now : Int) (error : Option String),
      (updateCrawlStatus s now true error).consecutiveFailures = 0 ∧
      (updateCrawlStatus s now true error).lastSuccessfulCrawlAt = some now) ∧
    (∀ (s : FeedSource) (now : Int) (success : Bool) (error : Option String),
      (updateCrawlStatus s now success error).consecutiveFailures < s.consecutiveFailures →
      success = true) := by
  refine ⟨?_, ?_, ?_, ?_⟩
  · intro s now e
    simp [updateCrawlStatus, recordCrawlError]
  · intro s n1 n2 n3 e1 e2 e3 h0
    simp [updateCrawlStatus, recordCrawlError, h0]
  · intro s now error
    simp [updateCrawlStatus, recordSuccessfulCrawl]
  · intro s now success error h
    cases success with
    | true => rfl
    | false =>
      exfalso
      cases error with
      | none => simp [updateCrawlStatus] at h
      | some e => simp [updateCrawlStatus, recordCrawlError] at h

/-- Witness for C4: three failures from a clean source reach exactly 3. -/
theorem updateCrawlStatus_spec_witness :
    demoSourceStale.consecutiveFailures = 0 ∧
    (updateCrawlStatus (updateCrawlStatus (updateCrawlStatus demoSourceStale 10 false
        (some "a")) 20 false (some "b")) 30 false (some "c")).consecutiveFailures = 3 :=
  ⟨by decide, updateCrawlStatus_spec.2.1 demoSourceStale 10 20 30 "a" "b" "c" (by decide)⟩

theorem processFeedItems_dup_aux (sourceId : Nat) :
    ∀ (items : List RssFeedItem) (st : IngestState) (p n : Nat),
      (∀ i ∈ items, ∃ c ∈ st.contents, c.guid = i.guid) →
      items.foldl (processFeedItem sourceId) (st, p, n) = (st, p + items.length, n) := by
  intro items
  induction items with
  | nil => intro st p n _; simp
  | cons i rest ih =>
    intro st p n h
    have hfind : (findByGuid st.contents i.guid).isSome := by
      rw [findByGuid, List.find?_isSome]
      obtain ⟨c, hc, hg⟩ := h i (List.mem_cons_self i rest)
      exact ⟨c, hc, by simp [hg]⟩
    rw [List.foldl_cons]
    have hstep : processFeedItem sourceId (st, p, n) i = (st, p + 1, n) := by
      rw [processFeedItem]
      rcases hf : findByGuid st.contents i.guid with _ | c
      · rw [hf] at hfind; simp at hfind
      · simp
    rw [hstep, ih st (p + 1) n (fun j hj => h j (List.mem_cons_of_mem i hj))]
    simp [List.length_cons]
    omega

/-- C1.  Ingest idempotence: when every item of the batch already has a
stored `ContentItem` with its guid, re-ingesting the batch leaves the content
table and the keyword-extraction queue unchanged (no second `ContentItem`, no
re-triggered extraction), counts every item as processed with zero new
articles, and the subsequent statistics update leaves
`totalArticlesCrawled` (and the whole source row) unchanged. -/
theorem ingest_idempotent (sourceId : Nat) (st : IngestState) (items : List RssFeedItem)
    (src : FeedSource)
    (h : ∀ i ∈ items, ∃ c ∈ st.contents, c.guid = i.guid) :
    processFeedItems sourceId st items = (st, items.length, 0) ∧
    updateSourceStatistics src (processFeedItems sourceId st items).2.2 = src := by
  have h1 : processFeedItems sourceId st items = (st, items.length, 0) := by
    rw [processFeedItems, processFeedItems_dup_aux sourceId items st 0 0 h]
    simp
  refine ⟨h1, ?_⟩
  rw [h1]
  simp [updateSourceStatistics]

/-- Witness for C1: re-ingesting a single already-stored item is a counted
no-op and does not bump `totalArticlesCrawled`. -/
theorem ingest_idempotent_witness :
    (∀ i ∈ [demoItem], ∃ c ∈ (IngestState.mk [demoContent] []).contents, c.guid = i.guid) ∧
    (processFeedItems 1 (IngestState.mk [demoContent] []) [demoItem] =
        (IngestState.mk [demoContent] [], 1, 0) ∧
      updateSourceStatistics demoSourceStale
          (processFeedItems 1 (IngestState.mk [demoContent] []) [demoItem]).2.2 =
        demoSourceStale) :=
  ⟨by decide, ingest_idempotent 1 (IngestState.mk [demoContent] []) [demoItem]
    demoSourceStale (by decide)⟩

theorem linkMatches_createLink (kid cid : Nat) (ct : ContentType) (f : Nat) (s : ℚ)
    (c : Option String) :
    linkMatches kid cid ct
      { KeywordContentLink.createLink kid cid ct f s with
          context := jsSetContext c none } = true := by
  simp [linkMatches, KeywordContentLink.createLink]

theorem filter_createOrUpdateLink (kid cid : Nat) (ct : ContentType) (f : Nat) (s : ℚ)
    (c : Option String) :
    ∀ links : List KeywordContentLink,
      (createOrUpdateLink kid cid ct f s c links).filter (linkMatches kid cid ct) =
        (match links.filter (linkMatches kid cid ct) with
         | [] =>
           [{ KeywordContentLink.createLink kid cid ct f s with
                context := jsSetContext c none }]
         | l :: t =>
           { l with frequency := l.frequency + f, sentimentScore := s,
                    context := jsSetContext c l.context } :: t) := by
  intro links
  induction links with
  | nil =>
    simp [createOrUpdateLink, linkMatches, KeywordContentLink.createLink, List.filter]
  | cons a rest ih =>
    cases hb : linkMatches kid cid ct a with
    | false =>
      simp only [createOrUpdateLink, hb, Bool.false_eq_true, if_false, List.filter_cons]
      exact ih
    | true =>
      have hup : linkMatches kid cid ct
          { a with frequency := a.frequency + f, sentimentScore := s,
                   context := jsSetContext c a.context } = true := by
        simp only [linkMatches] at hb ⊢
        exact hb
      simp only [createOrUpdateLink, hb, if_true, List.filter_cons, hup]

theorem length_createOrUpdateLink (kid cid : Nat) (ct : ContentType) (f : Nat) (s : ℚ)
    (c : Option String) :
    ∀ links : List KeywordContentLink,
      (createOrUpdateLink kid cid ct f s c links).length =
        (if links.filter (linkMatches kid cid ct) = [] then links.length + 1
         else links.length) := by
  intro links
  induction links with
  | nil => simp [createOrUpdateLink]
  | cons a rest ih =>
    cases hb : linkMatches kid cid ct a with
    | false =>
      simp only [createOrUpdateLink, hb, Bool.false_eq_true, if_false, List.length_cons,
        List.filter_cons, ih]
      by_cases hr : rest.filter (linkMatches kid cid ct) = [] <;> simp [hr]
    | true =>
      simp only [createOrUpdateLink, hb, if_true, List.length_cons, List.filter_cons]
      simp

theorem linkMatches_false_of_ne {kid cid kid2 cid2 : Nat} {ct ct2 : ContentType}
    (hne : ¬(kid2 = kid ∧ cid2 = cid ∧ ct2 = ct)) (l : KeywordContentLink)
    (h1 : l.keywordId = kid) (h2 : l.contentId = cid) (h3 : l.contentType = ct) :
    linkMatches kid2 cid2 ct2 l = false := by
  simp only [linkMatches, Bool.and_eq_false_iff, beq_eq_false_iff_ne, ne_eq,
    decide_eq_false_iff_not, h1, h2, h3]
  by_cases a1 : kid = kid2
  · by_cases a2 : cid = cid2
    · exact Or.inr fun a3 => hne ⟨a1.symm, a2.symm, a3.symm⟩
    · exact Or.inl (Or.inr a2)
  · exact Or.inl (Or.inl a1)

theorem countTriple_other (kid cid : Nat) (ct : ContentType) (f : Nat) (s : ℚ)
    (c : Option String) (kid2 cid2 : Nat) (ct2 : ContentType)
    (hne : ¬(kid2 = kid ∧ cid2 = cid ∧ ct2 = ct)) :
    ∀ links : List KeywordContentLink,
      countTriple (createOrUpdateLink kid cid ct f s c links) kid2 cid2 ct2 =
        countTriple links kid2 cid2 ct2 := by
  intro links
  induction links with
  | nil =>
    simp only [createOrUpdateLink, countTriple, List.filter_nil, List.length_nil]
    rw [List.filter_cons, linkMatches_false_of_ne hne _ rfl rfl rfl]
    simp
  | cons a rest ih =>
    cases hb : linkMatches kid cid ct a with
    | false =>
      simp only [createOrUpdateLink, hb, Bool.false_eq_true, if_false, countTriple,
        List.filter_cons]
      cases hb2 : linkMatches kid2 cid2 ct2 a <;>
        simpa [countTriple] using ih
    | true =>
      have hup : linkMatches kid2 cid2 ct2
          { a with frequency := a.frequency + f, sentimentScore := s,
                   context := jsSetContext c a.context } = linkMatches kid2 cid2 ct2 a := by
        simp only [linkMatches]
      simp only [createOrUpdateLink, hb, if_true, countTriple, List.filter_cons, hup]
      cases hb2 : linkMatches kid2 cid2 ct2 a <;> simp

/-- C3.  Link upsert uniqueness: `createOrUpdateLink` keeps at most one row
per `(keywordId, contentId, contentType)` triple — with no matching row it
appends exactly one row carrying the given frequency; with a matching row it
updates that single row in place, adding the incoming frequency; rows of
every other triple are untouched; and two upserts for the same content and
keyword starting from no row leave exactly one row with the frequencies
summed. -/
theorem createOrUpdateLink_spec (links : List KeywordContentLink) (kid cid : Nat)
    (ct : ContentType) (f1 f2 : Nat) (s1 s2 : ℚ) (c1 c2 : Option String) :
    (countTriple links kid cid ct ≤ 1 →
      countTriple (createOrUpdateLink kid cid ct f1 s1 c1 links) kid cid ct = 1) ∧
    (countTriple links kid cid ct = 0 →
      ((createOrUpdateLink kid cid ct f1 s1 c1 links).filter
          (linkMatches kid cid ct)).map KeywordContentLink.frequency = [f1] ∧
      (createOrUpdateLink kid cid ct f1 s1 c1 links).length = links.length + 1) ∧
    (∀ l t, links.filter (linkMatches kid cid ct) = l :: t →
      ((createOrUpdateLink kid cid ct f1 s1 c1 links).filter
          (linkMatches kid cid ct)).map KeywordContentLink.frequency =
        (l.frequency + f1) :: t.map KeywordContentLink.frequency ∧
      (createOrUpdateLink kid cid ct f1 s1 c1 links).length = links.length) ∧
    (∀ kid2 cid2 ct2, ¬(kid2 = kid ∧ cid2 = cid ∧ ct2 = ct) →
      countTriple (createOrUpdateLink kid cid ct f1 s1 c1 links) kid2 cid2 ct2 =
        countTriple links kid2 cid2 ct2) ∧
    (countTriple links kid cid ct = 0 →
      ((createOrUpdateLink kid cid ct f2 s2 c2
            (createOrUpdateLink kid cid ct f1 s1 c1 links)).filter
          (linkMatches kid cid ct)).map KeywordContentLink.frequency = [f1 + f2]) := by
  refine ⟨?_, ?_, ?_, ?_, ?_⟩
  · intro hle
    rw [countTriple, filter_createOrUpdateLink]
    rcases hf : links.filter (linkMatches kid cid ct) with _ | ⟨l, t⟩
    · simp
    · rw [countTriple, hf] at hle
      simp only [List.length_cons] at hle ⊢
      have ht : t = [] := by
        cases t with
        | nil => rfl
        | cons x xs => simp at hle
      simp [ht]
  · intro h0
    have hf : links.filter (linkMatches kid cid ct) = [] := by
      rw [countTriple] at h0
      exact List.length_eq_zero.mp h0
    constructor
    · rw [filter_createOrUpdateLink, hf]
      simp [KeywordContentLink.createLink]
    · rw [length_createOrUpdateLink, if_pos hf]
  · intro l t hf
    constructor
    · rw [filter_createOrUpdateLink, hf]
      rfl
    · rw [length_createOrUpdateLink, hf]
      simp
  · intro kid2 cid2 ct2 hne
    exact countTriple_other kid cid ct f1 s1 c1 kid2 cid2 ct2 hne links
  · intro h0
    have hf : links.filter (linkMatches kid cid ct) = [] := by
      rw [countTriple] at h0
      exact List.length_eq_zero.mp h0
    have h1 : (createOrUpdateLink kid cid ct f1 s1 c1 links).filter
        (linkMatches kid cid ct) =
        [{ KeywordContentLink.createLink kid cid ct f1 s1 with
             context := jsSetContext c1 none }] := by
      rw [filter_createOrUpdateLink, hf]
    rw [filter_createOrUpdateLink, h1]
    simp [KeywordContentLink.createLink]

/-- Witness for C3: two upserts of the same triple on an empty table leave a
single row with the frequencies summed. -/
theorem createOrUpdateLink_spec_witness :
    countTriple [] 1 2 ContentType.feed = 0 ∧
    ((createOrUpdateLink 1 2 ContentType.feed 3 0 (some "ctx")
          (createOrUpdateLink 1 2 ContentType.feed 2 0 (some "ctx") [])).filter
        (linkMatches 1 2 ContentType.feed)).map KeywordContentLink.frequency = [2 + 3] :=
  ⟨by decide,
    (createOrUpdateLink_spec [] 1 2 ContentType.feed 2 3 0 0 (some "ctx")
      (some "ctx")).2.2.2.2 (by decide)⟩

/-! ### Relevance score (claim C6) -/

/-- C6.  The content-local relevance score equals the specification's blend
`0.5 * normalizedFrequency + 0.2 * positionScore + cryptoBoost` exactly: the
final `Math.min(·, 1)` in the source never binds, because the blend is
already at most `0.5 + 0.2 + 0.3 = 1`.  The hypothesis excludes the empty
keyword, for which the JavaScript position formula would produce `NaN` on
empty text (keywords reaching this computation have length at least 4). -/
theorem calculateRelevanceScore_spec (keyword text : String) (frequency : Nat)
    (isCryptoKeyword : Bool) (hkw : keyword ≠ "") :
    calculateRelevanceScore keyword text frequency isCryptoKeyword =
      relevanceScoreSpec keyword text frequency isCryptoKeyword := by
  clear hkw
  have hfs1 : min ((frequency : ℚ) / 10) 1 ≤ 1 := min_le_right _ _
  have hfs0 : (0 : ℚ) ≤ min ((frequency : ℚ) / 10) 1 :=
    le_min (by positivity) (by norm_num)
  have hcb1 : (if isCryptoKeyword then (3 : ℚ) / 10 else 0) ≤ 3 / 10 := by
    split <;> norm_num
  have hcb0 : (0 : ℚ) ≤ (if isCryptoKeyword then (3 : ℚ) / 10 else 0) := by
    split <;> norm_num
  rcases h : jsIndexOf (jsToLower text) (jsToLower keyword) with _ | i
  · simp only [calculateRelevanceScore, relevanceScoreSpec, h]
    rw [min_eq_left (by nlinarith)]
    ring
  · have hps1 : max 0 (1 - (i : ℚ) / (text.length : ℚ)) ≤ 1 :=
      max_le (by norm_num) (by
        have : (0 : ℚ) ≤ (i : ℚ) / (text.length : ℚ) := by positivity
        linarith)
    have hps0 : (0 : ℚ) ≤ max 0 (1 - (i : ℚ) / (text.length : ℚ)) := le_max_left _ _
    simp only [calculateRelevanceScore, relevanceScoreSpec, h]
    rw [min_eq_left (by nlinarith)]
    ring

/-- Witness for C6 at the keyword "bitcoin" in a short text. -/
theorem calculateRelevanceScore_spec_witness :
    "bitcoin" ≠ "" ∧
    calculateRelevanceScore "bitcoin" "Bitcoin is rising" 5 true =
      relevanceScoreSpec "bitcoin" "Bitcoin is rising" 5 true :=
  ⟨by decide, calculateRelevanceScore_spec "bitcoin" "Bitcoin is rising" 5 true
    (by decide)⟩

/-! ### Extraction totality (claim C10) -/

/-- C10.  Totality of the extraction pipeline: whatever the internal outcome,
the caught wrappers return a plain value — the pure result on success and the
empty analysis (resp. the empty link list) on any thrown error — and the
empty result coincides with the successful result on keyword-free input, so a
caller cannot tell "no keywords found" from "extraction failed". -/
theorem extraction_totality_spec :
    (∀ (outcome : Except String Unit) (text : String) (title : Option String),
      extractKeywordsFromTextCaught outcome text title = extractKeywordsFromText text title ∨
      extractKeywordsFromTextCaught outcome text title = emptyAnalysis) ∧
    (∀ (e : String) (text : String) (title : Option String),
      extractKeywordsFromTextCaught (Except.error e) text title = emptyAnalysis) ∧
    extractKeywordsFromText "" none = emptyAnalysis ∧
    (∀ (outcome : Except String Unit) (st : ServiceState) (cid : Nat) (ct : ContentType)
        (text : String) (title : Option String) (sent : ℚ),
      processContentKeywordsCaught outcome st cid ct text title sent =
        (processContentKeywords st cid ct text title sent).1 ∨
      processContentKeywordsCaught outcome st cid ct text title sent = []) ∧
    (∀ (e : String) (st : ServiceState) (cid : Nat) (ct : ContentType) (text : String)
        (title : Option String) (sent : ℚ),
      processContentKeywordsCaught (Except.error e) st cid ct text title sent = []) ∧
    (∀ (st : ServiceState) (cid : Nat) (ct : ContentType) (sent : ℚ),
      (processContentKeywords st cid ct "" none sent).1 = []) := by
  have hempty : extractKeywordsFromText "" none = emptyAnalysis := by decide
  refine ⟨?_, ?_, hempty, ?_, ?_, ?_⟩
  · intro outcome text title
    cases outcome with
    | ok _ => exact Or.inl rfl
    | error _ => exact Or.inr rfl
  · intro e text title
    rfl
  · intro outcome st cid ct text title sent
    cases outcome with
    | ok _ => exact Or.inl rfl
    | error _ => exact Or.inr rfl
  · intro e st cid ct text title sent
    rfl
  · intro st cid ct sent
    rw [processContentKeywords, hempty]
    rfl

/-! ### Keyword frequency monotonicity (claim C9) -/

theorem findOrCreateLoop_not_found (freshId : Nat) (kw nk : String) :
    ∀ store : List Keyword, (∀ k ∈ store, k.normalizedKeyword ≠ nk) →
      findOrCreateLoop freshId kw nk store =
        ((findOrCreateLoop freshId kw nk []).1,
          store ++ [(findOrCreateLoop freshId kw nk []).1]) := by
  intro store
  induction store with
  | nil => intro _; rfl
  | cons a rest ih =>
    intro h
    have ha : a.normalizedKeyword ≠ nk := h a (List.mem_cons_self a rest)
    simp only [findOrCreateLoop, if_neg ha]
    rw [ih (fun k hk => h k (List.mem_cons_of_mem a hk))]
    rfl

theorem findOrCreateLoop_found (freshId : Nat) (kw nk : String) :
    ∀ (store : List Keyword) (k : Keyword),
      store.find? (fun j => j.normalizedKeyword == nk) = some k →
      (findOrCreateLoop freshId kw nk store).1.frequency = k.frequency + 1 := by
  intro store
  induction store with
  | nil => intro k h; simp at h
  | cons a rest ih =>
    intro k h
    by_cases ha : a.normalizedKeyword = nk
    · rw [List.find?_cons_of_pos _ (by simpa using ha)] at h
      cases h
      simp only [findOrCreateLoop, if_pos ha]
    · rw [List.find?_cons_of_neg _ (by simpa using ha)] at h
      simp only [findOrCreateLoop, if_neg ha]
      exact ih k h

theorem findOrCreateLoop_mono (freshId : Nat) (kw nk : String) :
    ∀ (store : List Keyword) (k : Keyword), k ∈ store →
      ∃ k2 ∈ (findOrCreateLoop freshId kw nk store).2,
        k2.id = k.id ∧ k.frequency ≤ k2.frequency := by
  intro store
  induction store with
  | nil => intro k h; simp at h
  | cons a rest ih =>
    intro k hk
    by_cases ha : a.normalizedKeyword = nk
    · simp only [findOrCreateLoop, if_pos ha]
      rcases List.mem_cons.mp hk with rfl | hk
      · exact ⟨{ k with frequency := k.frequency + 1 }, List.mem_cons_self _ _, rfl,
          Nat.le_succ _⟩
      · exact ⟨k, List.mem_cons_of_mem _ hk, rfl, le_refl _⟩
    · simp only [findOrCreateLoop, if_neg ha]
      rcases List.mem_cons.mp hk with rfl | hk
      · exact ⟨k, List.mem_cons_self _ _, rfl, le_refl _⟩
      · obtain ⟨k2, hk2, hid, hfreq⟩ := ih k hk
        exact ⟨k2, List.mem_cons_of_mem _ hk2, hid, hfreq⟩

theorem updateKeywordSentiment_freq (kid : Nat) (sent : ℚ) :
    ∀ store : List Keyword,
      (updateKeywordSentiment store kid sent).map (fun k => (k.id, k.frequency)) =
        store.map (fun k => (k.id, k.frequency)) := by
  intro store
  induction store with
  | nil => rfl
  | cons a rest ih =>
    simp only [updateKeywordSentiment, updateFirstBy] at ih ⊢
    by_cases ha : (a.id == kid) = true
    · simp only [ha, if_true, List.map_cons]
      congr 1
    · simp only [ha, Bool.false_eq_true, if_false, List.map_cons, ih]

/-- C9.  Keyword frequency monotonicity: `findOrCreateKeyword` creates an
absent term with frequency 1 (appending exactly one row) and bumps the first
matching row's frequency by exactly 1; every stored keyword keeps a row with
its id whose frequency has not decreased; and the sentiment update of the
pipeline never changes any frequency. -/
theorem keywordFrequency_monotone_spec :
    (∀ (freshId : Nat) (kw : String) (store : List Keyword),
      (∀ k ∈ store, k.normalizedKeyword ≠ normalizeKeyword kw) →
      (findOrCreateKeyword freshId kw store).1.frequency = 1 ∧
      (findOrCreateKeyword freshId kw store).2 =
        store ++ [(findOrCreateKeyword freshId kw store).1]) ∧
    (∀ (freshId : Nat) (kw : String) (store : List Keyword) (k : Keyword),
      store.find? (fun j => j.normalizedKeyword == normalizeKeyword kw) = some k →
      (findOrCreateKeyword freshId kw store).1.frequency = k.frequency + 1) ∧
    (∀ (freshId : Nat) (kw : String) (store : List Keyword) (k : Keyword), k ∈ store →
      ∃ k2 ∈ (findOrCreateKeyword freshId kw store).2,
        k2.id = k.id ∧ k.frequency ≤ k2.frequency) ∧
    (∀ (store : List Keyword) (kid : Nat) (sent : ℚ),
      (updateKeywordSentiment store kid sent).map (fun k => (k.id, k.frequency)) =
        store.map (fun k => (k.id, k.frequency))) := by
  refine ⟨?_, ?_, ?_, ?_⟩
  · intro freshId kw store h
    have hx := findOrCreateLoop_not_found freshId kw (normalizeKeyword kw) store h
    unfold findOrCreateKeyword
    rw [hx]
    exact ⟨rfl, rfl⟩
  · intro freshId kw store k h
    exact findOrCreateLoop_found freshId kw (normalizeKeyword kw) store k h
  · intro freshId kw store k h
    exact findOrCreateLoop_mono freshId kw (normalizeKeyword kw) store k h
  · intro store kid sent
    exact updateKeywordSentiment_freq kid sent store

/-- Witness for C9: re-encountering a stored term bumps its frequency from 5
to 6. -/
theorem keywordFrequency_monotone_spec_witness :
    [demoKeyword].find? (fun j => j.normalizedKeyword == normalizeKeyword "bitcoin") =
      some demoKeyword ∧
    (findOrCreateKeyword 9 "bitcoin" [demoKeyword]).1.frequency =
      demoKeyword.frequency + 1 :=
  ⟨by rfl, keywordFrequency_monotone_spec.2.1 9 "bitcoin" [demoKeyword] demoKeyword
    (by rfl)⟩

theorem bump_keys (w : String) :
    ∀ acc : List (String × Nat),
      (bumpFrequency acc w).map Prod.fst =
        if w ∈ acc.map Prod.fst then acc.map Prod.fst else acc.map Prod.fst ++ [w] := by
  intro acc
  induction acc with
  | nil => simp [bumpFrequency]
  | cons p rest ih =>
    obtain ⟨k, n⟩ := p
    by_cases hk : k = w
    · subst hk
      simp [bumpFrequency]
    · simp only [bumpFrequency, if_neg hk, List.map_cons, ih]
      have hw : w ∈ k :: rest.map Prod.fst ↔ w ∈ rest.map Prod.fst := by
        constructor
        · intro h
          rcases List.mem_cons.mp h with h1 | h1
          · exact absurd h1.symm hk
          · exact h1
        · exact fun h => List.mem_cons_of_mem _ h
      by_cases hmem : w ∈ rest.map Prod.fst <;> simp [hmem, hw, hk]

theorem mem_bump_keys (k w : String) (acc : List (String × Nat)) :
    k ∈ (bumpFrequency acc w).map Prod.fst ↔ k ∈ acc.map Prod.fst ∨ k = w := by
  rw [bump_keys]
  by_cases h : w ∈ acc.map Prod.fst
  · rw [if_pos h]
    constructor
    · exact Or.inl
    · rintro (h1 | rfl)
      · exact h1
      · exact h
  · rw [if_neg h]
    simp

theorem bump_lookup_self (w : String) :
    ∀ acc : List (String × Nat),
      lookupCount (bumpFrequency acc w) w = lookupCount acc w + 1 := by
  intro acc
  induction acc with
  | nil => simp [bumpFrequency, lookupCount, List.find?]
  | cons p rest ih =>
    obtain ⟨k, n⟩ := p
    by_cases hk : k = w
    · subst hk
      simp [bumpFrequency, lookupCount, List.find?]
    · have hk' : (k == w) = false := by simpa using hk
      simp only [bumpFrequency, if_neg hk, lookupCount, List.find?, hk'] at ih ⊢
      exact ih

theorem bump_lookup_other (w k : String) (hk : k ≠ w) :
    ∀ acc : List (String × Nat),
      lookupCount (bumpFrequency acc w) k = lookupCount acc k := by
  intro acc
  induction acc with
  | nil =>
    have hk' : (w == k) = false := by simpa using fun h => hk h.symm
    simp [bumpFrequency, lookupCount, List.find?, hk']
  | cons p rest ih =>
    obtain ⟨a, n⟩ := p
    by_cases ha : a = w
    · subst ha
      have h1 : (a == k) = false := by simpa using fun h => hk (by simp [← h])
      simp [bumpFrequency, lookupCount, List.find?, h1]
    · by_cases hak : a = k
      · subst hak
        simp [bumpFrequency, if_neg ha, lookupCount, List.find?]
      · have h1 : (a == k) = false := by simpa using hak
        simp only [bumpFrequency, if_neg ha, lookupCount, List.find?, h1] at ih ⊢
        exact ih

theorem foldl_bump_keys (k : String) :
    ∀ (ws : List String) (acc : List (String × Nat)),
      k ∈ (ws.foldl bumpFrequency acc).map Prod.fst ↔ k ∈ acc.map Prod.fst ∨ k ∈ ws := by
  intro ws
  induction ws with
  | nil => intro acc; simp
  | cons w rest ih =>
    intro acc
    rw [List.foldl_cons, ih (bumpFrequency acc w), mem_bump_keys]
    simp [List.mem_cons, or_assoc, or_comm, or_left_comm]

theorem foldl_bump_lookup (k : String) :
    ∀ (ws : List String) (acc : List (String × Nat)),
      lookupCount (ws.foldl bumpFrequency acc) k = lookupCount acc k + ws.count k := by
  intro ws
  induction ws with
  | nil => intro acc; simp
  | cons w rest ih =>
    intro acc
    rw [List.foldl_cons, ih (bumpFrequency acc w), List.count_cons]
    by_cases hk : k = w
    · subst hk
      rw [bump_lookup_self]
      simp
      omega
    · rw [bump_lookup_other w k hk]
      have : (w == k) = false := by simpa using fun h => hk h.symm
      simp [this]

theorem foldl_bump_nodup :
    ∀ (ws : List String) (acc : List (String × Nat)),
      (acc.map Prod.fst).Nodup → ((ws.foldl bumpFrequency acc).map Prod.fst).Nodup := by
  intro ws
  induction ws with
  | nil => intro acc h; simpa using h
  | cons w rest ih =>
    intro acc h
    rw [List.foldl_cons]
    refine ih (bumpFrequency acc w) ?_
    rw [bump_keys]
    by_cases hmem : w ∈ acc.map Prod.fst
    · rw [if_pos hmem]; exact h
    · rw [if_neg hmem]
      simp [List.nodup_append, h, hmem]

theorem mem_iff_lookup (k : String) (n : Nat) :
    ∀ l : List (String × Nat), (l.map Prod.fst).Nodup →
      ((k, n) ∈ l ↔ k ∈ l.map Prod.fst ∧ lookupCount l k = n) := by
  intro l
  induction l with
  | nil => intro _; simp
  | cons p rest ih =>
    intro hnd
    obtain ⟨a, m⟩ := p
    rw [List.map_cons] at hnd
    have hna : a ∉ rest.map Prod.fst := (List.nodup_cons.mp hnd).1
    have hndr : (rest.map Prod.fst).Nodup := (List.nodup_cons.mp hnd).2
    by_cases hak : a = k
    · subst hak
      have h1 : (a == a) = true := by simp
      constructor
      · intro hmem
        rcases List.mem_cons.mp hmem with heq | hmem2
        · have hn : n = m := by simpa using congrArg Prod.snd heq
          subst hn
          exact ⟨List.mem_cons_self _ _, by simp [lookupCount, List.find?, h1]⟩
        · exact absurd (List.mem_map_of_mem Prod.fst hmem2) hna
      · rintro ⟨_, hlook⟩
        simp only [lookupCount, List.find?, h1] at hlook
        subst hlook
        exact List.mem_cons_self _ _
    · have h1 : (a == k) = false := by simpa using hak
      constructor
      · intro hmem
        rcases List.mem_cons.mp hmem with heq | hmem2
        · exact absurd (congrArg Prod.fst heq).symm hak
        · have := (ih hndr).mp hmem2
          exact ⟨List.mem_cons_of_mem _ this.1, by
            simpa [lookupCount, List.find?, h1] using this.2⟩
      · rintro ⟨hmem, hlook⟩
        rcases List.mem_cons.mp hmem with heq | hmem2
        · exact absurd heq.symm hak
        · simp only [lookupCount, List.find?, h1] at hlook
          exact List.mem_cons_of_mem _ ((ih hndr).mpr ⟨hmem2, hlook⟩)

theorem calculateFrequencies_nodup (ws : List String) :
    ((calculateFrequencies ws).map Prod.fst).Nodup :=
  foldl_bump_nodup ws [] (by simp)

theorem mem_calculateFrequencies (ws : List String) (k : String) (n : Nat) :
    (k, n) ∈ calculateFrequencies ws ↔ k ∈ ws ∧ n = ws.count k := by
  rw [mem_iff_lookup k n (calculateFrequencies ws) (calculateFrequencies_nodup ws)]
  rw [calculateFrequencies, foldl_bump_keys, foldl_bump_lookup]
  simp [lookupCount, eq_comm]

theorem mem_relevantKeywords (text : String) (title : Option String) (k : String) :
    k ∈ (extractKeywordsFromText text title).relevantKeywords ↔
      k ∈ filterKeywords (tokenizeText (fullTextOf text title)) ∧
      2 ≤ (filterKeywords (tokenizeText (fullTextOf text title))).count k ∧
      4 ≤ k.length := by
  show k ∈ (relevantEntries (calculateFrequencies
    (filterKeywords (tokenizeText (fullTextOf text title))))).map Prod.fst ↔ _
  rw [List.mem_map]
  constructor
  · rintro ⟨p, hp, rfl⟩
    rw [relevantEntries, List.mem_insertionSort, List.mem_filter] at hp
    obtain ⟨hpf, hcond⟩ := hp
    simp only [Bool.and_eq_true, decide_eq_true_eq] at hcond
    obtain ⟨a, b⟩ := p
    have hm := (mem_calculateFrequencies _ a b).mp hpf
    exact ⟨hm.1, hm.2 ▸ hcond.1, hcond.2⟩
  · rintro ⟨hmem, hcnt, hlen⟩
    refine ⟨(k, (filterKeywords (tokenizeText (fullTextOf text title))).count k), ?_, rfl⟩
    rw [relevantEntries, List.mem_insertionSort, List.mem_filter]
    refine ⟨(mem_calculateFrequencies _ k _).mpr ⟨hmem, rfl⟩, ?_⟩
    simp only [Bool.and_eq_true, decide_eq_true_eq]
    exact ⟨hcnt, hlen⟩

theorem relevantKeywords_sorted (text : String) (title : Option String) :
    (extractKeywordsFromText text title).relevantKeywords.Pairwise
      (fun a b => (filterKeywords (tokenizeText (fullTextOf text title))).count b ≤
        (filterKeywords (tokenizeText (fullTextOf text title))).count a) := by
  have hsorted : (relevantEntries (calculateFrequencies
      (filterKeywords (tokenizeText (fullTextOf text title))))).Pairwise freqDescending :=
    List.sorted_insertionSort freqDescending _
  have hcnt : ∀ p ∈ relevantEntries (calculateFrequencies
      (filterKeywords (tokenizeText (fullTextOf text title)))),
      p.2 = (filterKeywords (tokenizeText (fullTextOf text title))).count p.1 := by
    intro p hp
    rw [relevantEntries, List.mem_insertionSort, List.mem_filter] at hp
    obtain ⟨a, b⟩ := p
    exact ((mem_calculateFrequencies _ a b).mp hp.1).2
  have h2 : (relevantEntries (calculateFrequencies
      (filterKeywords (tokenizeText (fullTextOf text title))))).Pairwise
      (fun p q => (filterKeywords (tokenizeText (fullTextOf text title))).count q.1 ≤
        (filterKeywords (tokenizeText (fullTextOf text title))).count p.1) :=
    hsorted.imp_of_mem (fun hp hq h => by
      rw [← hcnt _ hp, ← hcnt _ hq]
      exact h)
  show ((relevantEntries (calculateFrequencies
    (filterKeywords (tokenizeText (fullTextOf text title))))).map Prod.fst).Pairwise _
  rw [List.pairwise_map]
  exact h2

theorem processOneKeyword_fold (cid : Nat) (ct : ContentType) (text : String) (sent : ℚ)
    (analysis : KeywordAnalysisResult) :
    ∀ (l : List String) (acc : List ContentKeywordLink × ServiceState),
      ((l.foldl (processOneKeyword cid ct text sent analysis) acc).1).map
          ContentKeywordLink.keyword =
        acc.1.map ContentKeywordLink.keyword ++ l := by
  intro l
  induction l with
  | nil => intro acc; simp
  | cons w rest ih =>
    intro acc
    rw [List.foldl_cons, ih]
    simp [processOneKeyword]

/-- C5.  Keyword extraction pipeline: after lowercasing, punctuation
stripping, whitespace tokenization and the stopword / short-token / numeric
filter, the relevant keywords are exactly the remaining tokens with
in-document frequency at least 2 and length at least 4; they are ranked by
frequency descending; and the keywords processed into links are exactly the
first 20 of that ranking, so at most 20 links are produced per content
item. -/
theorem keywordPipeline_spec (st : ServiceState) (cid : Nat) (ct : ContentType)
    (text : String) (title : Option String) (sent : ℚ) :
    (∀ k, k ∈ (extractKeywordsFromText text title).relevantKeywords ↔
        k ∈ filterKeywords (tokenizeText (fullTextOf text title)) ∧
        2 ≤ (filterKeywords (tokenizeText (fullTextOf text title))).count k ∧
        4 ≤ k.length) ∧
    (extractKeywordsFromText text title).relevantKeywords.Pairwise
      (fun a b => (filterKeywords (tokenizeText (fullTextOf text title))).count b ≤
        (filterKeywords (tokenizeText (fullTextOf text title))).count a) ∧
    (processContentKeywords st cid ct text title sent).1.map ContentKeywordLink.keyword =
      (extractKeywordsFromText text title).relevantKeywords.take 20 ∧
    (processContentKeywords st cid ct text title sent).1.length ≤ 20 := by
  have h3 : (processContentKeywords st cid ct text title sent).1.map
      ContentKeywordLink.keyword =
      (extractKeywordsFromText text title).relevantKeywords.take 20 := by
    simpa using processOneKeyword_fold cid ct text sent (extractKeywordsFromText text title)
      ((extractKeywordsFromText text title).relevantKeywords.take 20) ([], st)
  refine ⟨fun k => mem_relevantKeywords text title k, relevantKeywords_sorted text title,
    h3, ?_⟩
  have hlen : (processContentKeywords st cid ct text title sent).1.length =
      ((processContentKeywords st cid ct text title sent).1.map
        ContentKeywordLink.keyword).length := (List.length_map _ _).symm
  rw [hlen, h3, List.length_take]
  exact min_le_left _ _

/-! ### Normalizer empty-item rule (claim C7) -/

/-- Counterexample to C7 as stated: an item carrying a (cleaned, non-empty)
title but no body field is dropped by the normalizer, although the claim
says an item with at least one of title and body is kept. -/
theorem normalizer_keep_claim_counterexample :
    cleanText (some (jsOrDefault titleOnlyItem.title "Untitled")) = "Hello world" ∧
    (parseRss2Feed demoParser 0 "synth" "http://e.com/feed" titleOnlyChannel).items = [] := by
  decide

theorem feedItem_filter_decode (i : RssFeedItem) :
    (!(i.title == "") && !(i.content == "")) = true ↔ i.title ≠ "" ∧ i.content ≠ "" := by
  simp

/-- C7 (amended).  The normalizer keeps exactly the items whose cleaned
title and extracted body are both non-empty: every emitted item has a
non-empty title and body (no empty records), an item missing both is dropped
(its body is empty), but an item with a title and no body is dropped as
well; the crafted 3-item RSS payload and 3-item Atom payload still yield
3 + 3 items, each with non-empty title and body. -/
theorem normalizer_empty_item_spec :
    (∀ (P : DateParser) (now : Int) (synth feedUrl : String) (ch : RssChannel),
      (∀ i ∈ (parseRss2Feed P now synth feedUrl ch).items,
        i.title ≠ "" ∧ i.content ≠ "") ∧
      (∀ raw ∈ ch.items.reduceOption,
        (mkRssItem P now synth feedUrl ch.language raw ∈
            (parseRss2Feed P now synth feedUrl ch).items ↔
          (mkRssItem P now synth feedUrl ch.language raw).title ≠ "" ∧
          (mkRssItem P now synth feedUrl ch.language raw).content ≠ ""))) ∧
    (∀ (P : DateParser) (now : Int) (synth feedUrl : String) (feed : AtomFeed),
      (∀ i ∈ (parseAtomFeed P now synth feedUrl feed).items,
        i.title ≠ "" ∧ i.content ≠ "") ∧
      (∀ raw ∈ feed.entries.reduceOption,
        (mkAtomItem P now synth feedUrl feed.xmlLang raw ∈
            (parseAtomFeed P now synth feedUrl feed).items ↔
          (mkAtomItem P now synth feedUrl feed.xmlLang raw).title ≠ "" ∧
          (mkAtomItem P now synth feedUrl feed.xmlLang raw).content ≠ ""))) ∧
    (parseRss2Feed demoParser 0 "synth" "http://e.com/feed" rssRoundTrip).items.length = 3 ∧
    (parseAtomFeed demoParser 0 "synth" "http://e.com/feed" atomRoundTrip).items.length = 3 := by
  refine ⟨?_, ?_, by decide, by decide⟩
  · intro P now synth feedUrl ch
    constructor
    · intro i hi
      have hi2 : i ∈ (ch.items.reduceOption.map
          (mkRssItem P now synth feedUrl ch.language)).filter
          (fun i => !(i.title == "") && !(i.content == "")) := hi
      exact (feedItem_filter_decode i).mp (List.mem_filter.mp hi2).2
    · intro raw hraw
      constructor
      · intro hmem
        have hmem2 : mkRssItem P now synth feedUrl ch.language raw ∈
            (ch.items.reduceOption.map (mkRssItem P now synth feedUrl ch.language)).filter
            (fun i => !(i.title == "") && !(i.content == "")) := hmem
        exact (feedItem_filter_decode _).mp (List.mem_filter.mp hmem2).2
      · intro hcond
        show mkRssItem P now synth feedUrl ch.language raw ∈
          (ch.items.reduceOption.map (mkRssItem P now synth feedUrl ch.language)).filter
          (fun i => !(i.title == "") && !(i.content == ""))
        exact List.mem_filter.mpr ⟨List.mem_map_of_mem _ hraw,
          (feedItem_filter_decode _).mpr hcond⟩
  · intro P now synth feedUrl feed
    constructor
    · intro i hi
      have hi2 : i ∈ (feed.entries.reduceOption.map
          (mkAtomItem P now synth feedUrl feed.xmlLang)).filter
          (fun i => !(i.title == "") && !(i.content == "")) := hi
      exact (feedItem_filter_decode i).mp (List.mem_filter.mp hi2).2
    · intro raw hraw
      constructor
      · intro hmem
        have hmem2 : mkAtomItem P now synth feedUrl feed.xmlLang raw ∈
            (feed.entries.reduceOption.map (mkAtomItem P now synth feedUrl feed.xmlLang)).filter
            (fun i => !(i.title == "") && !(i.content == "")) := hmem
        exact (feedItem_filter_decode _).mp (List.mem_filter.mp hmem2).2
      · intro hcond
        show mkAtomItem P now synth feedUrl feed.xmlLang raw ∈
          (feed.entries.reduceOption.map (mkAtomItem P now synth feedUrl feed.xmlLang)).filter
          (fun i => !(i.title == "") && !(i.content == ""))
        exact List.mem_filter.mpr ⟨List.mem_map_of_mem _ hraw,
          (feedItem_filter_decode _).mpr hcond⟩

/-- Witness for C7 (amended) at the first crafted RSS item. -/
theorem normalizer_empty_item_spec_witness :
    rssItem1 ∈ rssRoundTrip.items.reduceOption ∧
    (mkRssItem demoParser 0 "synth" "http://e.com/feed" rssRoundTrip.language rssItem1 ∈
        (parseRss2Feed demoParser 0 "synth" "http://e.com/feed" rssRoundTrip).items ↔
      (mkRssItem demoParser 0 "synth" "http://e.com/feed" rssRoundTrip.language
        rssItem1).title ≠ "" ∧
      (mkRssItem demoParser 0 "synth" "http://e.com/feed" rssRoundTrip.language
        rssItem1).content ≠ "") :=
  ⟨by decide,
    (normalizer_empty_item_spec.1 demoParser 0 "synth" "http://e.com/feed" rssRoundTrip).2
      rssItem1 (by decide)⟩

/-! ### Publish-date fallback (claim C8) -/

/-- C8 (code bug).  For a feed item whose publish-date field is present but
unparseable, the normalizer stores the Invalid Date produced by
`new Date(string)` — never the current time: the `catch` branch that would
return "now" is unreachable because the `Date` constructor does not throw on
unparseable strings. -/
theorem publishedAt_invalid_on_unparseable (P : DateParser) (now : Int)
    (synth feedUrl : String) (lang : Option String) (item : RssRawItem) (s : String)
    (hpd : item.pubDate = some s) (hne : s ≠ "") (hs : P.parse s = none) :
    (mkRssItem P now synth feedUrl lang item).publishedAt = none ∧
    ∀ t : Int, (mkRssItem P now synth feedUrl lang item).publishedAt ≠ some t := by
  have h1 : (mkRssItem P now synth feedUrl lang item).publishedAt = none := by
    simp only [mkRssItem, pubDateInput, firstTruthyOpt, hpd, if_neg hne, parseDate, hs]
  exact ⟨h1, fun t ht => by rw [h1] at ht; exact Option.noConfusion ht⟩

/-- Witness for C8: the crafted item with `pubDate = "not-a-date"` ends up
with an Invalid Date. -/
theorem publishedAt_invalid_on_unparseable_witness :
    rssItem3.pubDate = some "not-a-date" ∧ "not-a-date" ≠ "" ∧
    demoParser.parse "not-a-date" = none ∧
    (mkRssItem demoParser 0 "synth" "http://e.com/feed" (some "en")
      rssItem3).publishedAt = none :=
  ⟨rfl, by decide, by decide,
    (publishedAt_invalid_on_unparseable demoParser 0 "synth" "http://e.com/feed"
      (some "en") rssItem3 "not-a-date" rfl (by decide) (by decide)).1⟩

